import Mathlib

/-!
Verification of the artifact filtering pipeline
(`src/pkg/reg/filter/artifact.go` of the harbor fork).

The Go code is shallowly embedded: every filter becomes a pure Lean
function on lists of artifacts, returning `Except String _` where the Go
code can return an error (or panic).  The two external matching
capabilities — the double-star glob engine `util.Match` and the Go
`regexp` package — live outside the repository snapshot, so, following
the spec, they are treated as abstract capabilities and passed in as
function parameters:

  * `GlobMatch`    models `util.Match : (pattern, candidate) -> (bool, error)`;
  * `RegexCompile` models `regexp.Compile`, producing on success a total
    matcher `Regex` that models `(*regexp.Regexp).MatchString`
    (`MatchString` itself never fails in Go).

Go runtime panics (failed `interface` type assertions in the builder,
index-out-of-range in the debug prints of the label-regex filter) are
modelled as `Except.error`, since they also abort the computation with
no result.
-/

deriving instance DecidableEq for Except

/-- Modelled from the spec: the external double-star glob capability
`util.Match(pattern, candidate) -> (bool, error)`; the engine itself is
outside the snapshot, only its interface is specified. -/
abbrev GlobMatch : Type := String → String → Except String Bool

/-- A compiled regular expression, reduced to its `MatchString` behaviour
(unanchored substring search; never fails once compiled). -/
abbrev Regex : Type := String → Bool

/-- Modelled from the spec: `regexp.Compile`, which either fails on a
malformed pattern or yields a compiled matcher. -/
abbrev RegexCompile : Type := String → Except String Regex

/-- `model.Artifact` (package `pkg/reg/model`, outside the snapshot).
Modelled from the spec §3: type, digest, ordered tags, labels, accessory
flag and parent tags.  Field `Type` is named `typ` because `Type` is a
Lean keyword; the remaining fields keep the Go names. -/
structure Artifact where
  typ : String
  Digest : String
  Tags : List String
  Labels : List String
  IsAcc : Bool
  ParentTags : List String
deriving DecidableEq, Repr

/-- Modelled from the spec: `model.Matches`, the "matches" decoration string. -/
def model.Matches : String := "matches"

/-- Modelled from the spec: `model.Excludes`, the "excludes" decoration string. -/
def model.Excludes : String := "excludes"

/-- Modelled from the spec: the `model.FilterTypeLabel` discriminator string. -/
def model.FilterTypeLabel : String := "label"

/-- Modelled from the spec: the `model.FilterTypeTag` discriminator string. -/
def model.FilterTypeTag : String := "tag"

/-- Modelled from the spec: the `model.FilterTypeTagRegex` discriminator string. -/
def model.FilterTypeTagRegex : String := "tagRegex"

/-- Modelled from the spec: the `model.FilterTypeLabelRegex` discriminator string. -/
def model.FilterTypeLabelRegex : String := "labelRegex"

/-- Modelled from the spec §3: the payload of `model.Filter.Value`, which in
Go is `interface` and holds either a single pattern string (Tag, TagRegex)
or a list of pattern strings (Label, LabelRegex). -/
inductive FilterValue where
  | str (s : String)
  | strs (ls : List String)
deriving DecidableEq, Repr

/-- Modelled from the spec §3: `model.Filter` — kind discriminator, value and
decoration.  Field `Type` is named `typ` (Lean keyword). -/
structure model.Filter where
  typ : String
  Value : FilterValue
  Decoration : String
deriving DecidableEq, Repr

/-- The decoration dispatch repeated at every append site of the Go file:
under `model.Excludes` keep the complement of the match result, under any
other decoration keep the match result. -/
def keepByDecoration (decoration : String) (m : Bool) : Bool :=
  if decoration = model.Excludes then !m else m

/-- The shape shared by all error-capable filter loops of the Go file:
walk the list, run `step` on each element, append its optional output,
and abort with the first error (in which case Go returns `nil, err`,
discarding everything appended so far). -/
def filterMapM {α β : Type} (step : α → Except String (Option β)) :
    List α → Except String (List β)
  | [] => .ok []
  | a :: rest =>
    match step a with
    | .error e => .error e
    | .ok ob =>
      match filterMapM step rest with
      | .error e => .error e
      | .ok out =>
        .ok (match ob with
          | some b => b :: out
          | none => out)

/-! ## Type filter (`artifactTypeFilter`, artifact.go lines 97-115) -/

structure artifactTypeFilter where
  types : List String
deriving DecidableEq, Repr

/-- `strings.ToLower`, modelled characterwise (kept at the character-list
level so that concrete instances evaluate by kernel reduction). -/
def strToLower (s : String) : String :=
  String.mk (s.data.map Char.toLower)

/-- `strings.EqualFold(strings.ToLower(x), strings.ToLower(t))` of line 108,
modelled as equality of the lowercased strings. -/
def typeStringsEqual (x t : String) : Bool :=
  strToLower x == strToLower t

/-- The inner loop of lines 107-112: one append per configured type that
matches the artifact's type (the Go `continue` continues the inner loop,
so a multiply-matching artifact is appended multiply). -/
def artifactTypeFilter.innerLoop (artifact : Artifact) : List String → List Artifact
  | [] => []
  | t :: ts =>
    if typeStringsEqual artifact.typ t then
      artifact :: artifactTypeFilter.innerLoop artifact ts
    else
      artifactTypeFilter.innerLoop artifact ts

/-- The outer loop of lines 106-113. -/
def artifactTypeFilter.outerLoop (types : List String) : List Artifact → List Artifact
  | [] => []
  | artifact :: rest =>
    artifactTypeFilter.innerLoop artifact types ++ artifactTypeFilter.outerLoop types rest

/-- `artifactTypeFilter.Filter`, artifact.go lines 101-115. -/
def artifactTypeFilter.Filter (a : artifactTypeFilter) (artifacts : List Artifact) :
    Except String (List Artifact) :=
  if a.types = [] then .ok artifacts
  else .ok (artifactTypeFilter.outerLoop a.types artifacts)

/-! ## Exact label filter (`artifactLabelFilter`, artifact.go lines 119-154) -/

structure artifactLabelFilter where
  labels : List String
  decoration : String
deriving DecidableEq, Repr

/-- Lines 131-141: build the artifact's label set and require every filter
label to be a member (break on the first missing one). -/
def hasAllLabels (filterLabels artifactLabels : List String) : Bool :=
  filterLabels.all (fun label => artifactLabels.contains label)

/-- `artifactLabelFilter.Filter`, artifact.go lines 125-154. -/
def artifactLabelFilter.Filter (a : artifactLabelFilter) (artifacts : List Artifact) :
    Except String (List Artifact) :=
  if a.labels = [] then .ok artifacts
  else .ok (artifacts.filter
    (fun artifact => keepByDecoration a.decoration (hasAllLabels a.labels artifact.Labels)))

/-! ## Tagged/untagged filter (`artifactTaggedFilter`, artifact.go lines 157-170) -/

structure artifactTaggedFilter where
  tagged : Bool
deriving DecidableEq, Repr

/-- `artifactTaggedFilter.Filter`, artifact.go lines 161-170. -/
def artifactTaggedFilter.Filter (a : artifactTaggedFilter) (artifacts : List Artifact) :
    Except String (List Artifact) :=
  .ok (artifacts.filter (fun artifact =>
    (a.tagged && !artifact.Tags.isEmpty) || (!a.tagged && artifact.Tags.isEmpty)))

/-! ## Glob tag filter (`artifactTagFilter`, artifact.go lines 172-249) -/

structure artifactTagFilter where
  pattern : String
  decoration : String
deriving DecidableEq, Repr

/-- The tag source of lines 186-191: parent tags for an accessory,
the artifact's own tags otherwise. -/
def tagsForMatching (artifact : Artifact) : List String :=
  if artifact.IsAcc then artifact.ParentTags else artifact.Tags

/-- The per-tag loop of lines 212-227: match every tag of the source
against the pattern (first `util.Match` error aborts), keeping matching
tags under Matches and non-matching ones under Excludes. -/
def keptTags (glob : GlobMatch) (pattern decoration : String) :
    List String → Except String (List String)
  | [] => .ok []
  | tag :: rest =>
    match glob pattern tag with
    | .error e => .error e
    | .ok m =>
      match keptTags glob pattern decoration rest with
      | .error e => .error e
      | .ok out => .ok (if keepByDecoration decoration m then tag :: out else out)

/-- The per-artifact body of the loop of lines 183-247: the untagged case
matches the pattern against the empty string and keeps the original
record; the tagged case narrows the tag list, drops the artifact when
nothing is kept, and otherwise emits a fresh record (own tags verbatim
for an accessory, the narrowed tags otherwise).  The fresh record sets
only type/digest/labels/tags, so `IsAcc` is `false` and `ParentTags` is
`[]` (Go zero values). -/
def artifactTagFilter.step (a : artifactTagFilter) (glob : GlobMatch)
    (artifact : Artifact) : Except String (Option Artifact) :=
  if tagsForMatching artifact = [] then
    match glob a.pattern "" with
    | .error e => .error e
    | .ok m => .ok (if keepByDecoration a.decoration m then some artifact else none)
  else
    match keptTags glob a.pattern a.decoration (tagsForMatching artifact) with
    | .error e => .error e
    | .ok tags =>
      if tags = [] then .ok none
      else if artifact.IsAcc then
        .ok (some { typ := artifact.typ, Digest := artifact.Digest,
                    Tags := artifact.Tags, Labels := artifact.Labels,
                    IsAcc := false, ParentTags := [] })
      else
        .ok (some { typ := artifact.typ, Digest := artifact.Digest,
                    Tags := tags, Labels := artifact.Labels,
                    IsAcc := false, ParentTags := [] })

/-- `artifactTagFilter.Filter`, artifact.go lines 178-249. -/
def artifactTagFilter.Filter (a : artifactTagFilter) (glob : GlobMatch)
    (artifacts : List Artifact) : Except String (List Artifact) :=
  if a.pattern = "" then .ok artifacts
  else filterMapM (a.step glob) artifacts

/-! ## Regex tag filter (`artifactTagFilterRegex`, artifact.go lines 251-364) -/

structure artifactTagFilterRegex where
  pattern : String
  decoration : String
deriving DecidableEq, Repr

/-- The per-artifact body of the loop of lines 270-362, identical to the
glob case but using the compiled matcher, which cannot fail. -/
def artifactTagFilterRegex.step (r : Regex) (decoration : String)
    (artifact : Artifact) : Option Artifact :=
  if tagsForMatching artifact = [] then
    if keepByDecoration decoration (r "") then some artifact else none
  else
    let tags := (tagsForMatching artifact).filter (fun tag => keepByDecoration decoration (r tag))
    if tags = [] then none
    else if artifact.IsAcc then
      some { typ := artifact.typ, Digest := artifact.Digest,
             Tags := artifact.Tags, Labels := artifact.Labels,
             IsAcc := false, ParentTags := [] }
    else
      some { typ := artifact.typ, Digest := artifact.Digest,
             Tags := tags, Labels := artifact.Labels,
             IsAcc := false, ParentTags := [] }

/-- `artifactTagFilterRegex.Filter`, artifact.go lines 258-364: empty
pattern is the identity; otherwise the pattern is compiled once, before
the artifact loop, and a compile failure aborts the call. -/
def artifactTagFilterRegex.Filter (a : artifactTagFilterRegex) (compile : RegexCompile)
    (artifacts : List Artifact) : Except String (List Artifact) :=
  if a.pattern = "" then .ok artifacts
  else
    match compile a.pattern with
    | .error e => .error e
    | .ok r => .ok (artifacts.filterMap (artifactTagFilterRegex.step r a.decoration))

/-! ## Regex label filter (`artifactLabelFilterRegex`, artifact.go lines 366-431) -/

structure artifactLabelFilterRegex where
  labels : List String
  decoration : String
deriving DecidableEq, Repr

/-- The inner loop of lines 396-416 for one compiled pattern: walk the
artifact's labels; the debug print `artifacts[i].Digest` indexes the
*artifact list* by the *label index* `i`, a Go panic (modelled as an
error) whenever `i` reaches the list length; otherwise the first label
the pattern does not match sets `match = false` and breaks out of both
loops (`.ok false`), and if every label matches the scan reports
`.ok true` and the outer loop moves to the next pattern. -/
def scanLabels (r : Regex) (n : Nat) : Nat → List String → Except String Bool
  | _, [] => .ok true
  | i, lbl :: rest =>
    if i < n then
      if r lbl then scanLabels r n (i + 1) rest else .ok false
    else .error "runtime error: index out of range"

/-- The outer loop of lines 383-418: for each configured pattern, compile
it (inside the loop, so compilation is reached only if no earlier label
scan broke out) and scan the artifact's labels with it.  Result `true`
means every label of the artifact matched every compiled pattern. -/
def labelsMatchRegex (compile : RegexCompile) (n : Nat) (artifactLabels : List String) :
    List String → Except String Bool
  | [] => .ok true
  | p :: ps =>
    match compile p with
    | .error e => .error e
    | .ok r =>
      match scanLabels r n 0 artifactLabels with
      | .error e => .error e
      | .ok true => labelsMatchRegex compile n artifactLabels ps
      | .ok false => .ok false

/-- `artifactLabelFilterRegex.Filter`, artifact.go lines 372-431.
`n` is the length of the artifact list, needed because the debug print
indexes the list by label position. -/
def artifactLabelFilterRegex.Filter (a : artifactLabelFilterRegex) (compile : RegexCompile)
    (artifacts : List Artifact) : Except String (List Artifact) :=
  if a.labels = [] then .ok artifacts
  else
    filterMapM
      (fun artifact =>
        match labelsMatchRegex compile artifacts.length artifact.Labels a.labels with
        | .error e => .error e
        | .ok m => .ok (if keepByDecoration a.decoration m then some artifact else none))
      artifacts

/-! ## Strategy interface and pipeline (artifact.go lines 77-95) -/

/-- The closed variant of the Go `ArtifactFilter` interface: one
constructor per strategy implementation in the file. -/
inductive ArtifactFilter where
  | typeF (f : artifactTypeFilter)
  | labelF (f : artifactLabelFilter)
  | taggedF (f : artifactTaggedFilter)
  | tagF (f : artifactTagFilter)
  | tagRegexF (f : artifactTagFilterRegex)
  | labelRegexF (f : artifactLabelFilterRegex)
deriving DecidableEq, Repr

/-- Dispatch of the interface call `filter.Filter(artifacts)`, supplying
the two external matching capabilities. -/
def ArtifactFilter.run (glob : GlobMatch) (compile : RegexCompile) :
    ArtifactFilter → List Artifact → Except String (List Artifact)
  | .typeF f => f.Filter
  | .labelF f => f.Filter
  | .taggedF f => f.Filter
  | .tagF f => f.Filter glob
  | .tagRegexF f => f.Filter compile
  | .labelRegexF f => f.Filter compile

/-- `ArtifactFilters.Filter`, artifact.go lines 86-95: thread the artifact
list through the strategies in order; the first error aborts with no
partial result. -/
def ArtifactFilters.Filter (glob : GlobMatch) (compile : RegexCompile) :
    List ArtifactFilter → List Artifact → Except String (List Artifact)
  | [], artifacts => .ok artifacts
  | f :: fs, artifacts =>
    match f.run glob compile artifacts with
    | .error e => .error e
    | .ok out => ArtifactFilters.Filter glob compile fs out

/-! ## Builder (`BuildArtifactFilters`, artifact.go lines 37-75) -/

/-- One iteration of the builder's switch (lines 45-69).  The Go type
assertions `filter.Value.(string)` / `filter.Value.([]string)` panic when
the value has the other shape; the panic is modelled as an error. -/
def buildOne (filter : model.Filter) : Except String (Option ArtifactFilter) :=
  if filter.typ = model.FilterTypeLabel then
    match filter.Value with
    | .strs ls => .ok (some (.labelF { labels := ls, decoration := filter.Decoration }))
    | .str _ => .error "interface conversion panic"
  else if filter.typ = model.FilterTypeTag then
    match filter.Value with
    | .str s => .ok (some (.tagF { pattern := s, decoration := filter.Decoration }))
    | .strs _ => .error "interface conversion panic"
  else if filter.typ = model.FilterTypeTagRegex then
    match filter.Value with
    | .str s => .ok (some (.tagRegexF { pattern := s, decoration := filter.Decoration }))
    | .strs _ => .error "interface conversion panic"
  else if filter.typ = model.FilterTypeLabelRegex then
    match filter.Value with
    | .strs ls => .ok (some (.labelRegexF { labels := ls, decoration := filter.Decoration }))
    | .str _ => .error "interface conversion panic"
  else .ok none

/-- `BuildArtifactFilters`, artifact.go lines 37-75: append one strategy
per recognized rule, skip the rest; the Go function's error return is
always nil, so the only failure is a type-assertion panic. -/
def BuildArtifactFilters : List model.Filter → Except String (List ArtifactFilter)
  | [] => .ok []
  | f :: fs =>
    match buildOne f with
    | .error e => .error e
    | .ok of =>
      match BuildArtifactFilters fs with
      | .error e => .error e
      | .ok out =>
        .ok (match of with
          | some x => x :: out
          | none => out)

/-- `DoFilterArtifacts`, artifact.go lines 28-34. -/
def DoFilterArtifacts (glob : GlobMatch) (compile : RegexCompile)
    (artifacts : List Artifact) (filters : List model.Filter) : Except String (List Artifact) :=
  match BuildArtifactFilters filters with
  | .error e => .error e
  | .ok fl => ArtifactFilters.Filter glob compile fl artifacts

/-! ## Concrete capability instances and artifacts used in examples -/

/-- Whether the first character of `s` is `c` — the matching behaviour of
the glob `v*` and of the anchored regexes `^v.*` / `^s.*` on the example
candidates. -/
def strHeadIs (c : Char) (s : String) : Bool :=
  match s.data with
  | d :: _ => d == c
  | [] => false

/-- Modelled from the spec: a concrete instance of the glob capability,
defined on the patterns the examples use and agreeing there with
double-star glob semantics: `*` matches every candidate (including the
empty string) and `v*` matches exactly the candidates beginning with
`v`; other patterns report an evaluation error. -/
def demoGlob : GlobMatch := fun pattern candidate =>
  if pattern = "*" then .ok true
  else if pattern = "v*" then .ok (strHeadIs 'v' candidate)
  else .error "unsupported glob pattern"

/-- Modelled from the spec: a concrete instance of the regex capability,
agreeing with Go `regexp` on the patterns the examples use:
`(unterminated` and `(` fail to compile; `a` matches candidates
containing the character `a`; `^v.*` and `^s.*` match candidates
beginning with `v` and `s` respectively. -/
def demoCompile : RegexCompile := fun pattern =>
  if pattern = "(unterminated" then .error "error parsing regexp: missing closing paren"
  else if pattern = "(" then .error "error parsing regexp: missing closing paren"
  else if pattern = "a" then .ok (fun s => s.data.contains 'a')
  else if pattern = "^v.*" then .ok (strHeadIs 'v')
  else if pattern = "^s.*" then .ok (strHeadIs 's')
  else .error "unsupported regex pattern"

/-- The record the glob tag filter emits for `artAcc` under pattern `v*`
and decoration Matches. -/
def artAccOut : Artifact :=
  { typ := "image", Digest := "sha256:acc", Tags := [],
    Labels := ["l1"], IsAcc := false, ParentTags := [] }

/-- The record the glob tag filter emits for `artMixed` under pattern `v*`
and decoration Matches. -/
def artMixedKeptM : Artifact :=
  { typ := "image", Digest := "sha256:mixed", Tags := ["v1"],
    Labels := [], IsAcc := false, ParentTags := [] }

/-- The record the glob tag filter emits for `artMixed` under pattern `v*`
and decoration Excludes. -/
def artMixedKeptE : Artifact :=
  { typ := "image", Digest := "sha256:mixed", Tags := ["x"],
    Labels := [], IsAcc := false, ParentTags := [] }

/-- A plain tagged artifact, as in the spec's tag-narrowing example. -/
def artPlain : Artifact :=
  { typ := "image", Digest := "sha256:plain", Tags := ["v1", "v2", "latest"],
    Labels := ["stable"], IsAcc := false, ParentTags := [] }

/-- An accessory artifact with empty own tags and a matching parent tag,
as in the spec's accessory example. -/
def artAcc : Artifact :=
  { typ := "image", Digest := "sha256:acc", Tags := [],
    Labels := ["l1"], IsAcc := true, ParentTags := ["v1"] }

/-- An accessory artifact with non-empty own tags. -/
def artAcc2 : Artifact :=
  { typ := "image", Digest := "sha256:acc2", Tags := ["own1", "own2"],
    Labels := [], IsAcc := true, ParentTags := ["v9"] }

/-- A non-accessory artifact with no labels. -/
def artNoLabels : Artifact :=
  { typ := "image", Digest := "sha256:nolabels", Tags := [],
    Labels := [], IsAcc := false, ParentTags := [] }

/-- The artifact of the spec's label-regex example: labels
`v1.0` and `stable`. -/
def artVStable : Artifact :=
  { typ := "image", Digest := "sha256:vstable", Tags := [],
    Labels := ["v1.0", "stable"], IsAcc := false, ParentTags := [] }

/-- A non-accessory artifact with one matching and one non-matching tag
for the pattern `v*`. -/
def artMixed : Artifact :=
  { typ := "image", Digest := "sha256:mixed", Tags := ["v1", "x"],
    Labels := [], IsAcc := false, ParentTags := [] }

/-- An artifact of type `a`, for the type-filter example. -/
def artTypeA : Artifact :=
  { typ := "a", Digest := "sha256:typea", Tags := [],
    Labels := [], IsAcc := false, ParentTags := [] }

/-- The record the glob tag filter emits for `artPlain` under pattern `v*`
and decoration Matches: only the matching tags survive. -/
def artPlainOut : Artifact :=
  { typ := "image", Digest := "sha256:plain", Tags := ["v1", "v2"],
    Labels := ["stable"], IsAcc := false, ParentTags := [] }

/-- The record the glob tag filter emits for `artPlain` under pattern `v*`
and decoration Excludes: only the non-matching tag survives. -/
def artPlainOutE : Artifact :=
  { typ := "image", Digest := "sha256:plain", Tags := ["latest"],
    Labels := ["stable"], IsAcc := false, ParentTags := [] }

/-- The record the glob tag filter emits for `artAcc2` under pattern `v*`
and decoration Matches: the accessory's own tags, no accessory linkage. -/
def artAcc2Out : Artifact :=
  { typ := "image", Digest := "sha256:acc2", Tags := ["own1", "own2"],
    Labels := [], IsAcc := false, ParentTags := [] }

/-- A rule list exercising all four recognized kinds plus an unrecognized
one, with values shaped as the spec's data model requires. -/
def demoRules : List model.Filter :=
  [ { typ := model.FilterTypeLabel, Value := .strs ["a"], Decoration := model.Matches },
    { typ := model.FilterTypeTag, Value := .str "v*", Decoration := model.Excludes },
    { typ := "unknownKind", Value := .str "x", Decoration := model.Matches },
    { typ := model.FilterTypeTagRegex, Value := .str "^v.*", Decoration := model.Matches },
    { typ := model.FilterTypeLabelRegex, Value := .strs ["^s.*"], Decoration := model.Matches } ]

/-- Record identity modulo tag rewrites: the fields the tag filters
preserve when substituting a narrowed record. -/
def sameIdentity (b a : Artifact) : Prop :=
  b.typ = a.typ ∧ b.Digest = a.Digest ∧ b.Labels = a.Labels

/-- Modelled from the spec §4.8: the declarative one-to-one mapping from a
recognized rule kind (with the value shape of the spec's data model) to
its strategy; unrecognized kinds map to nothing. -/
def ruleToStrategy (f : model.Filter) : Option ArtifactFilter :=
  if f.typ = model.FilterTypeLabel then
    match f.Value with
    | .strs ls => some (.labelF { labels := ls, decoration := f.Decoration })
    | .str _ => none
  else if f.typ = model.FilterTypeTag then
    match f.Value with
    | .str s => some (.tagF { pattern := s, decoration := f.Decoration })
    | .strs _ => none
  else if f.typ = model.FilterTypeTagRegex then
    match f.Value with
    | .str s => some (.tagRegexF { pattern := s, decoration := f.Decoration })
    | .strs _ => none
  else if f.typ = model.FilterTypeLabelRegex then
    match f.Value with
    | .strs ls => some (.labelRegexF { labels := ls, decoration := f.Decoration })
    | .str _ => none
  else none

/-- The value-shape invariant of the spec's data model (§3): Label and
LabelRegex rules carry a list of patterns, Tag and TagRegex rules carry a
single pattern string. -/
def wellFormedFilter (f : model.Filter) : Bool :=
  if f.typ = model.FilterTypeLabel ∨ f.typ = model.FilterTypeLabelRegex then
    match f.Value with
    | .strs _ => true
    | .str _ => false
  else if f.typ = model.FilterTypeTag ∨ f.typ = model.FilterTypeTagRegex then
    match f.Value with
    | .str _ => true
    | .strs _ => false
  else true

/-! ## Helper lemmas -/

theorem filterMapM_steps_ok {α β : Type} (step : α → Except String (Option β))
    (l : List α) (res : List β) (h : filterMapM step l = .ok res) :
    ∀ a ∈ l, ∃ ob, step a = .ok ob := by
  induction l generalizing res with
  | nil => intro a ha; cases ha
  | cons x rest ih =>
    intro a ha
    simp only [filterMapM] at h
    rcases hx : step x with e | ob
    · rw [hx] at h; cases h
    · rw [hx] at h
      rcases hr : filterMapM step rest with e | out
      · rw [hr] at h; cases h
      · rw [hr] at h
        rcases List.mem_cons.mp ha with rfl | hmem
        · exact ⟨ob, hx⟩
        · exact ih out hr a hmem

theorem filterMapM_mem_of_step {α β : Type} (step : α → Except String (Option β))
    (l : List α) (res : List β) (a : α) (b : β)
    (h : filterMapM step l = .ok res) (ha : a ∈ l) (hb : step a = .ok (some b)) :
    b ∈ res := by
  induction l generalizing res with
  | nil => cases ha
  | cons x rest ih =>
    simp only [filterMapM] at h
    rcases hx : step x with e | ob
    · rw [hx] at h; cases h
    · rw [hx] at h
      rcases hr : filterMapM step rest with e | out
      · rw [hr] at h; cases h
      · rw [hr] at h
        rcases List.mem_cons.mp ha with rfl | hmem
        · rw [hb] at hx
          cases hx
          cases h
          exact List.mem_cons_self b out
        · cases h
          cases ob with
          | some b2 => exact List.mem_cons_of_mem b2 (ih out hr hmem)
          | none => exact ih out hr hmem

theorem filterMapM_mem_inv {α β : Type} (step : α → Except String (Option β))
    (l : List α) (res : List β) (b : β)
    (h : filterMapM step l = .ok res) (hb : b ∈ res) :
    ∃ a ∈ l, step a = .ok (some b) := by
  induction l generalizing res with
  | nil => cases h; cases hb
  | cons x rest ih =>
    simp only [filterMapM] at h
    rcases hx : step x with e | ob
    · rw [hx] at h; cases h
    · rw [hx] at h
      rcases hr : filterMapM step rest with e | out
      · rw [hr] at h; cases h
      · rw [hr] at h
        cases ob with
        | some b2 =>
          cases h
          rcases List.mem_cons.mp hb with rfl | hmem
          · exact ⟨x, List.mem_cons_self x rest, hx⟩
          · rcases ih out hr hmem with ⟨a, hal, hab⟩
            exact ⟨a, List.mem_cons_of_mem x hal, hab⟩
        | none =>
          cases h
          rcases ih out hr hb with ⟨a, hal, hab⟩
          exact ⟨a, List.mem_cons_of_mem x hal, hab⟩

theorem keepByDecoration_matches (m : Bool) :
    keepByDecoration model.Matches m = m := by
  simp [keepByDecoration, model.Matches, model.Excludes]

theorem keepByDecoration_excludes (m : Bool) :
    keepByDecoration model.Excludes m = !m := by
  simp [keepByDecoration]

theorem keptTags_matches_eq_filter (glob : GlobMatch) (pattern : String)
    (f : String → Bool) (tags : List String)
    (hf : ∀ t ∈ tags, glob pattern t = .ok (f t)) :
    keptTags glob pattern model.Matches tags = .ok (tags.filter f) := by
  induction tags with
  | nil => rfl
  | cons t ts ih =>
    simp only [keptTags]
    rw [hf t (List.mem_cons_self t ts)]
    rw [ih (fun u hu => hf u (List.mem_cons_of_mem t hu))]
    cases hft : f t <;>
      simp [keepByDecoration_matches, List.filter_cons, hft]

theorem keptTags_complement_length (glob : GlobMatch) (pattern : String)
    (tags ks1 ks2 : List String)
    (h1 : keptTags glob pattern model.Matches tags = .ok ks1)
    (h2 : keptTags glob pattern model.Excludes tags = .ok ks2) :
    ks1.length + ks2.length = tags.length := by
  induction tags generalizing ks1 ks2 with
  | nil =>
    cases h1; cases h2; rfl
  | cons t ts ih =>
    simp only [keptTags] at h1 h2
    rcases hg : glob pattern t with e | m
    · rw [hg] at h1; cases h1
    · rw [hg] at h1 h2
      rcases hr1 : keptTags glob pattern model.Matches ts with e | out1
      · rw [hr1] at h1; cases h1
      · rw [hr1] at h1
        rcases hr2 : keptTags glob pattern model.Excludes ts with e | out2
        · rw [hr2] at h2; cases h2
        · rw [hr2] at h2
          have hlen := ih out1 out2 hr1 hr2
          cases m with
          | true =>
            simp [keepByDecoration_matches, keepByDecoration_excludes] at h1 h2
            subst h1; subst h2
            simp only [List.length_cons]
            omega
          | false =>
            simp [keepByDecoration_matches, keepByDecoration_excludes] at h1 h2
            subst h1; subst h2
            simp only [List.length_cons]
            omega

theorem tagStep_sameIdentity (p dec : String) (glob : GlobMatch) (art b : Artifact)
    (h : artifactTagFilter.step ⟨p, dec⟩ glob art = .ok (some b)) :
    sameIdentity b art := by
  unfold artifactTagFilter.step at h
  unfold sameIdentity
  split at h
  · rcases hg : glob p "" with e | m
    · rw [hg] at h; cases h
    · rw [hg] at h
      simp only [] at h
      split at h
      · cases h; exact ⟨rfl, rfl, rfl⟩
      · cases h
  · rcases hk : keptTags glob p dec (tagsForMatching art) with e | tags
    · rw [hk] at h; cases h
    · rw [hk] at h
      simp only [] at h
      split at h
      · cases h
      · split at h
        · cases h; exact ⟨rfl, rfl, rfl⟩
        · cases h; exact ⟨rfl, rfl, rfl⟩

theorem tagStep_cover (p : String) (glob : GlobMatch) (art : Artifact)
    (obM obE : Option Artifact)
    (hM : artifactTagFilter.step ⟨p, model.Matches⟩ glob art = .ok obM)
    (hE : artifactTagFilter.step ⟨p, model.Excludes⟩ glob art = .ok obE) :
    (∃ b, obM = some b) ∨ (∃ b, obE = some b) := by
  unfold artifactTagFilter.step at hM hE
  split at hM
  · rw [if_pos (by assumption)] at hE
    rcases hg : glob p "" with e | m
    · rw [hg] at hM; cases hM
    · rw [hg] at hM hE
      simp only [keepByDecoration_matches, keepByDecoration_excludes] at hM hE
      cases m with
      | true =>
        cases hM
        exact Or.inl ⟨art, by simp⟩
      | false =>
        cases hE
        exact Or.inr ⟨art, by simp⟩
  · rw [if_neg (by assumption)] at hE
    rcases hkM : keptTags glob p model.Matches (tagsForMatching art) with e | ts1
    · rw [hkM] at hM; cases hM
    · rw [hkM] at hM
      rcases hkE : keptTags glob p model.Excludes (tagsForMatching art) with e | ts2
      · rw [hkE] at hE; cases hE
      · rw [hkE] at hE
        have hlen := keptTags_complement_length glob p (tagsForMatching art) ts1 ts2 hkM hkE
        have hne : tagsForMatching art ≠ [] := by assumption
        have hpos : tagsForMatching art ≠ [] → 0 < (tagsForMatching art).length := by
          intro hx
          cases hlist : tagsForMatching art with
          | nil => exact absurd hlist hx
          | cons y ys => simp [hlist]
        have : 0 < ts1.length + ts2.length := by rw [hlen]; exact hpos hne
        by_cases h1 : ts1 = []
    
        · have h2 : ts2 ≠ [] := by
            intro h2
            rw [h1, h2] at this
            simp at this
          simp only [] at hE
          rw [if_neg h2] at hE
          split at hE
          · cases hE; exact Or.inr ⟨_, rfl⟩
          · cases hE; exact Or.inr ⟨_, rfl⟩
        · simp only [] at hM
          rw [if_neg h1] at hM
          split at hM
          · cases hM; exact Or.inl ⟨_, rfl⟩
          · cases hM; exact Or.inl ⟨_, rfl⟩

theorem tagStep_acc_own_tags (p dec : String) (glob : GlobMatch) (art b : Artifact)
    (hacc : art.IsAcc = true)
    (h : artifactTagFilter.step ⟨p, dec⟩ glob art = .ok (some b)) :
    b.Tags = art.Tags := by
  unfold artifactTagFilter.step at h
  split at h
  · rcases hg : glob p "" with e | m
    · rw [hg] at h; cases h
    · rw [hg] at h
      simp only [] at h
      split at h
      · cases h; rfl
      · cases h
  · rcases hk : keptTags glob p dec (tagsForMatching art) with e | tags
    · rw [hk] at h; cases h
    · rw [hk] at h
      simp only [] at h
      by_cases ht : tags = []
      · rw [if_pos ht] at h; cases h
      · rw [if_neg ht] at h
        cases h
        rfl

theorem tagRegexStep_acc_own_tags (r : Regex) (dec : String) (art b : Artifact)
    (hacc : art.IsAcc = true)
    (h : artifactTagFilterRegex.step r dec art = some b) :
    b.Tags = art.Tags := by
  unfold artifactTagFilterRegex.step at h
  split at h
  · split at h
    · cases h; rfl
    · cases h
  · simp only [] at h
    by_cases ht :
        List.filter (fun tag => keepByDecoration dec (r tag)) (tagsForMatching art) = []
    · rw [if_pos ht] at h; cases h
    · rw [if_neg ht] at h
      cases h
      rfl

theorem tagStep_narrow_nonacc (p dec : String) (glob : GlobMatch) (art : Artifact)
    (ts : List String)
    (hacc : art.IsAcc = false) (htags : art.Tags ≠ [])
    (hk : keptTags glob p dec art.Tags = .ok ts) (hts : ts ≠ []) :
    artifactTagFilter.step ⟨p, dec⟩ glob art =
      .ok (some { typ := art.typ, Digest := art.Digest, Tags := ts,
                  Labels := art.Labels, IsAcc := false, ParentTags := [] }) := by
  unfold artifactTagFilter.step
  have hsrc : tagsForMatching art = art.Tags := by
    unfold tagsForMatching
    rw [hacc]
    simp
  rw [hsrc, if_neg htags, hk]
  simp only []
  rw [if_neg hts, if_neg (by rw [hacc]; simp)]

theorem tagStep_fresh (p dec : String) (glob : GlobMatch) (art b : Artifact)
    (hne : tagsForMatching art ≠ [])
    (h : artifactTagFilter.step ⟨p, dec⟩ glob art = .ok (some b)) :
    b.IsAcc = false ∧ b.ParentTags = [] := by
  unfold artifactTagFilter.step at h
  rw [if_neg hne] at h
  rcases hk : keptTags glob p dec (tagsForMatching art) with e | tags
  · rw [hk] at h; cases h
  · rw [hk] at h
    simp only [] at h
    split at h
    · cases h
    · split at h
      · cases h; exact ⟨rfl, rfl⟩
      · cases h; exact ⟨rfl, rfl⟩

theorem tagRegexStep_fresh (r : Regex) (dec : String) (art b : Artifact)
    (hne : tagsForMatching art ≠ [])
    (h : artifactTagFilterRegex.step r dec art = some b) :
    b.IsAcc = false ∧ b.ParentTags = [] := by
  unfold artifactTagFilterRegex.step at h
  rw [if_neg hne] at h
  simp only [] at h
  split at h
  · cases h
  · split at h
    · cases h; exact ⟨rfl, rfl⟩
    · cases h; exact ⟨rfl, rfl⟩

theorem tagFilter_emits (p dec : String) (glob : GlobMatch)
    (arts res : List Artifact) (art b : Artifact)
    (hp : p ≠ "")
    (hok : artifactTagFilter.Filter ⟨p, dec⟩ glob arts = .ok res)
    (ha : art ∈ arts)
    (hstep : artifactTagFilter.step ⟨p, dec⟩ glob art = .ok (some b)) :
    b ∈ res := by
  unfold artifactTagFilter.Filter at hok
  rw [if_neg hp] at hok
  exact filterMapM_mem_of_step _ _ _ _ _ hok ha hstep

theorem labelFilter_eq_filter (ls : List String) (dec : String) (arts : List Artifact)
    (hne : ls ≠ []) :
    artifactLabelFilter.Filter ⟨ls, dec⟩ arts =
      .ok (arts.filter (fun art => keepByDecoration dec (hasAllLabels ls art.Labels))) := by
  unfold artifactLabelFilter.Filter
  rw [if_neg hne]

theorem typeFilter_innerLoop_eq (art : Artifact) (types : List String) :
    artifactTypeFilter.innerLoop art types =
      (types.filter (fun t => typeStringsEqual art.typ t)).map (fun _ => art) := by
  induction types with
  | nil => rfl
  | cons t ts ih =>
    simp only [artifactTypeFilter.innerLoop, List.filter_cons]
    cases hm : typeStringsEqual art.typ t <;> simp [hm, ih]

theorem typeFilter_outerLoop_eq (types : List String) (arts : List Artifact) :
    artifactTypeFilter.outerLoop types arts =
      arts.flatMap (fun art =>
        (types.filter (fun t => typeStringsEqual art.typ t)).map (fun _ => art)) := by
  induction arts with
  | nil => rfl
  | cons a rest ih =>
    simp only [artifactTypeFilter.outerLoop, List.flatMap_cons, typeFilter_innerLoop_eq, ih]

theorem tagRegexFilter_ok_eq (p dec : String) (compile : RegexCompile) (r : Regex)
    (arts : List Artifact)
    (hp : p ≠ "") (hr : compile p = .ok r) :
    artifactTagFilterRegex.Filter ⟨p, dec⟩ compile arts =
      .ok (arts.filterMap (artifactTagFilterRegex.step r dec)) := by
  unfold artifactTagFilterRegex.Filter
  rw [if_neg hp, hr]

theorem buildOne_eq_ruleToStrategy (f : model.Filter) (hf : wellFormedFilter f = true) :
    buildOne f = .ok (ruleToStrategy f) := by
  unfold wellFormedFilter at hf
  unfold buildOne ruleToStrategy
  by_cases h1 : f.typ = model.FilterTypeLabel
  · rw [if_pos (Or.inl h1)] at hf
    cases hv : f.Value with
    | strs ls =>
      simp [h1, hv, model.FilterTypeLabel, model.FilterTypeTag,
        model.FilterTypeTagRegex, model.FilterTypeLabelRegex]
    | str s => rw [hv] at hf; simp at hf
  · by_cases h2 : f.typ = model.FilterTypeTag
    · have hnl : ¬(f.typ = model.FilterTypeLabel ∨ f.typ = model.FilterTypeLabelRegex) := by
        rintro (hx | hx)
        · exact h1 hx
        · exact absurd (h2.symm.trans hx) (by decide)
      rw [if_neg hnl, if_pos (Or.inl h2)] at hf
      cases hv : f.Value with
      | str s =>
        simp [h1, h2, hv, model.FilterTypeLabel, model.FilterTypeTag,
          model.FilterTypeTagRegex, model.FilterTypeLabelRegex]
      | strs ls => rw [hv] at hf; simp at hf
    · by_cases h3 : f.typ = model.FilterTypeTagRegex
      · have hnl : ¬(f.typ = model.FilterTypeLabel ∨ f.typ = model.FilterTypeLabelRegex) := by
          rintro (hx | hx) <;> exact absurd (h3.symm.trans hx) (by decide)
        rw [if_neg hnl, if_pos (Or.inr h3)] at hf
        cases hv : f.Value with
        | str s =>
          simp [h1, h2, h3, hv, model.FilterTypeLabel, model.FilterTypeTag,
            model.FilterTypeTagRegex, model.FilterTypeLabelRegex]
        | strs ls => rw [hv] at hf; simp at hf
      · by_cases h4 : f.typ = model.FilterTypeLabelRegex
        · rw [if_pos (Or.inr h4)] at hf
          cases hv : f.Value with
          | strs ls =>
            simp [h1, h2, h3, h4, hv, model.FilterTypeLabel, model.FilterTypeTag,
              model.FilterTypeTagRegex, model.FilterTypeLabelRegex]
          | str s => rw [hv] at hf; simp at hf
        · simp [h1, h2, h3, h4]

/-! ## Claim theorems -/

/-- C1 (code bug): the spec demands AND-across-patterns with OR-across-labels
and no vacuous match for label-less artifacts, but the code's inner loop
breaks out with `match = false` on the first label the current pattern does
not match.  On the spec's own §8 example — labels `v1.0` and `stable`
against patterns `^v.*` and `^s.*`, decoration Matches — the artifact
`artVStable` should be kept (each pattern is matched by some label) and the
zero-label artifact `artNoLabels` should be dropped; the code does the exact
opposite, returning only the zero-label artifact. -/
theorem labelRegexFilter_drops_spec_example :
    artifactLabelFilterRegex.Filter
        { labels := ["^v.*", "^s.*"], decoration := model.Matches }
        demoCompile [artVStable, artNoLabels] = .ok [artNoLabels] := by
  decide

/-- C2 (code bug): the spec demands that a malformed pattern's compile error
surface for every input artifact list, with compilation done once per rule
instantiation; the code compiles each pattern inside the per-artifact loop,
so with an empty artifact list the malformed pattern `(` is never compiled
and the call succeeds instead of failing. -/
theorem labelRegexFilter_lazy_compile_no_error :
    demoCompile "(" = .error "error parsing regexp: missing closing paren"
  ∧ artifactLabelFilterRegex.Filter
        { labels := ["("], decoration := model.Matches }
        demoCompile [] = .ok [] := by
  exact ⟨rfl, rfl⟩

/-- C9: a Tag or TagRegex rule with an empty pattern, and a Label or
LabelRegex rule with an empty pattern list, return the input artifact list
unchanged, with no error, under either decoration and any capabilities. -/
theorem empty_rule_identity (glob : GlobMatch) (compile : RegexCompile)
    (dec : String) (arts : List Artifact) :
    artifactTagFilter.Filter { pattern := "", decoration := dec } glob arts = .ok arts
  ∧ artifactTagFilterRegex.Filter { pattern := "", decoration := dec } compile arts = .ok arts
  ∧ artifactLabelFilter.Filter { labels := [], decoration := dec } arts = .ok arts
  ∧ artifactLabelFilterRegex.Filter { labels := [], decoration := dec } compile arts = .ok arts := by
  refine ⟨?_, ?_, ?_, ?_⟩
  · simp [artifactTagFilter.Filter]
  · simp [artifactTagFilterRegex.Filter]
  · simp [artifactLabelFilter.Filter]
  · simp [artifactLabelFilterRegex.Filter]

/-- C10: every record emitted by the tag-narrowing branch of the glob or
regex tag filter carries only type, digest, labels and tags: its accessory
flag is false and its parent-tag list empty, so any later tag rule matches
it against its own tags. -/
theorem narrowed_records_not_accessory
    (glob : GlobMatch) (r : Regex) (p dec : String) (art b : Artifact)
    (hne : tagsForMatching art ≠ []) :
    (artifactTagFilter.step { pattern := p, decoration := dec } glob art = .ok (some b) →
        b.IsAcc = false ∧ b.ParentTags = [] ∧ tagsForMatching b = b.Tags)
  ∧ (artifactTagFilterRegex.step r dec art = some b →
        b.IsAcc = false ∧ b.ParentTags = [] ∧ tagsForMatching b = b.Tags) := by
  constructor
  · intro h
    rcases tagStep_fresh p dec glob art b hne h with ⟨hb1, hb2⟩
    refine ⟨hb1, hb2, ?_⟩
    unfold tagsForMatching
    rw [hb1]
    simp
  · intro h
    rcases tagRegexStep_fresh r dec art b hne h with ⟨hb1, hb2⟩
    refine ⟨hb1, hb2, ?_⟩
    unfold tagsForMatching
    rw [hb1]
    simp

/-- C10 witness: the accessory `artAcc2` (own tags, parent tag `v9`) is
narrowed by the glob rule `v*`/Matches into `artAcc2Out`, which is not an
accessory and has no parent tags. -/
theorem narrowed_records_not_accessory_witness :
    artAcc2Out.IsAcc = false ∧ artAcc2Out.ParentTags = []
  ∧ tagsForMatching artAcc2Out = artAcc2Out.Tags :=
  (narrowed_records_not_accessory demoGlob (strHeadIs 'v') "v*" model.Matches
    artAcc2 artAcc2Out (by decide)).1 (by decide)

/-- C3: under decoration Matches, an accessory artifact that passes the
parent-tag check is emitted with its own original tag list verbatim, never
the matched subset of the parent tags — for the glob and the regex tag
filter alike — and the emitted record is indeed in the filter's output. -/
theorem accessory_emits_own_tags
    (glob : GlobMatch) (compile : RegexCompile) (r : Regex) (p : String)
    (art b : Artifact) (arts res : List Artifact)
    (hacc : art.IsAcc = true) :
    (artifactTagFilter.step { pattern := p, decoration := model.Matches } glob art =
        .ok (some b) → b.Tags = art.Tags)
  ∧ (artifactTagFilterRegex.step r model.Matches art = some b → b.Tags = art.Tags)
  ∧ (p ≠ "" → art ∈ arts →
      artifactTagFilter.Filter { pattern := p, decoration := model.Matches } glob arts =
        .ok res →
      artifactTagFilter.step { pattern := p, decoration := model.Matches } glob art =
        .ok (some b) →
      b ∈ res)
  ∧ (p ≠ "" → compile p = .ok r → art ∈ arts →
      artifactTagFilterRegex.Filter { pattern := p, decoration := model.Matches } compile arts =
        .ok res →
      artifactTagFilterRegex.step r model.Matches art = some b →
      b ∈ res) := by
  refine ⟨?_, ?_, ?_, ?_⟩
  · intro h
    exact tagStep_acc_own_tags p model.Matches glob art b hacc h
  · intro h
    exact tagRegexStep_acc_own_tags r model.Matches art b hacc h
  · intro hp ha hok hstep
    exact tagFilter_emits p model.Matches glob arts res art b hp hok ha hstep
  · intro hp hr ha hok hstep
    rw [tagRegexFilter_ok_eq p model.Matches compile r arts hp hr] at hok
    cases hok
    exact List.mem_filterMap.mpr ⟨art, ha, hstep⟩

/-- C3 witness: the accessory with own tags `[]` and parent tags `["v1"]`
survives the glob rule `v*`/Matches and the emitted record `artAccOut`
carries the empty own tag list and appears in the output. -/
theorem accessory_emits_own_tags_witness :
    artAccOut.Tags = artAcc.Tags ∧ artAccOut ∈ [artAccOut] :=
  ⟨(accessory_emits_own_tags demoGlob demoCompile (strHeadIs 'v') "v*"
      artAcc artAccOut [artAcc] [artAccOut] rfl).1 (by decide),
   (accessory_emits_own_tags demoGlob demoCompile (strHeadIs 'v') "v*"
      artAcc artAccOut [artAcc] [artAccOut] rfl).2.2.1
      (by decide) (by decide) (by decide) (by decide)⟩

/-- C5: for a non-accessory artifact with non-empty tags, a non-empty glob
pattern and decoration Matches, when at least one tag matches, the output
contains a fresh record whose tags are exactly the matching subset in
original order and whose type, digest and labels equal the input's; the
record differs from the input record whenever the matched subset differs
from the original tag list (the input record itself is a value in this
embedding and is never mutated). -/
theorem tag_narrowing_matched_subset
    (glob : GlobMatch) (p : String) (f : String → Bool) (art : Artifact)
    (arts res : List Artifact)
    (hacc : art.IsAcc = false) (htags : art.Tags ≠ []) (hp : p ≠ "")
    (hf : ∀ t ∈ art.Tags, glob p t = .ok (f t))
    (hne : art.Tags.filter f ≠ [])
    (ha : art ∈ arts)
    (hok : artifactTagFilter.Filter { pattern := p, decoration := model.Matches } glob arts =
      .ok res) :
    ∃ b ∈ res, b.Tags = art.Tags.filter f ∧ b.typ = art.typ ∧ b.Digest = art.Digest ∧
      b.Labels = art.Labels ∧ (art.Tags.filter f ≠ art.Tags → b ≠ art) := by
  have hk := keptTags_matches_eq_filter glob p f art.Tags hf
  have hstep := tagStep_narrow_nonacc p model.Matches glob art (art.Tags.filter f)
    hacc htags hk hne
  refine ⟨_, tagFilter_emits p model.Matches glob arts res art _ hp hok ha hstep,
    rfl, rfl, rfl, rfl, ?_⟩
  intro hdiff heq
  exact hdiff (congrArg Artifact.Tags heq)

/-- C5 witness: the spec's example — tags `v1`, `v2`, `latest` under glob
`v*`/Matches — emits `artPlainOut` with exactly the matching tags `v1`,
`v2` and the input's other fields; it differs from the input record. -/
theorem tag_narrowing_matched_subset_witness :
    ∃ b ∈ [artPlainOut], b.Tags = artPlain.Tags.filter (strHeadIs 'v') ∧
      b.typ = artPlain.typ ∧ b.Digest = artPlain.Digest ∧
      b.Labels = artPlain.Labels ∧
      (artPlain.Tags.filter (strHeadIs 'v') ≠ artPlain.Tags → b ≠ artPlain) :=
  tag_narrowing_matched_subset demoGlob "v*" (strHeadIs 'v') artPlain
    [artPlain] [artPlainOut] rfl (by decide) (by decide) (by decide)
    (by decide) (by decide) (by decide)

/-- C6: the pipeline executor applies strategies sequentially in list order
starting from the original input; an empty strategy list is the identity;
the first strategy error aborts the pipeline, is returned as-is and carries
no partial result; in particular a rule list starting with
`TagRegex("(unterminated")` returns the compile error of that pattern
without evaluating the following `Tag("*")` rule, for every artifact list. -/
theorem pipeline_sequential_fail_fast
    (glob : GlobMatch) (compile : RegexCompile)
    (f : ArtifactFilter) (fs : List ArtifactFilter)
    (arts arts2 : List Artifact) (e e1 : String) (dec dec2 : String)
    (hcomp : compile "(unterminated" = .error e) :
    ArtifactFilters.Filter glob compile [] arts = .ok arts
  ∧ (ArtifactFilter.run glob compile f arts = .error e1 →
      ArtifactFilters.Filter glob compile (f :: fs) arts = .error e1)
  ∧ (ArtifactFilter.run glob compile f arts = .ok arts2 →
      ArtifactFilters.Filter glob compile (f :: fs) arts =
        ArtifactFilters.Filter glob compile fs arts2)
  ∧ ArtifactFilters.Filter glob compile
      [.tagRegexF { pattern := "(unterminated", decoration := dec },
       .tagF { pattern := "*", decoration := dec2 }] arts = .error e := by
  refine ⟨rfl, ?_, ?_, ?_⟩
  · intro h
    simp [ArtifactFilters.Filter, h]
  · intro h
    simp [ArtifactFilters.Filter, h]
  · simp [ArtifactFilters.Filter, ArtifactFilter.run, artifactTagFilterRegex.Filter, hcomp]

/-- C6 witness: with the concrete capabilities, the two-rule list returns
the compile error of the malformed first pattern on a non-empty input. -/
theorem pipeline_sequential_fail_fast_witness :
    ArtifactFilters.Filter demoGlob demoCompile
      [.tagRegexF { pattern := "(unterminated", decoration := model.Matches },
       .tagF { pattern := "*", decoration := model.Matches }] [artPlain] =
      .error "error parsing regexp: missing closing paren" :=
  (pipeline_sequential_fail_fast demoGlob demoCompile
    (.tagF { pattern := "*", decoration := model.Matches }) []
    [artPlain] [] "error parsing regexp: missing closing paren" ""
    model.Matches model.Matches rfl).2.2.2

/-- C7 counterexample: the claim says each surviving artifact appears
exactly once, but the inner loop's `continue` continues the inner loop, so
an artifact whose type matches two configured entries — here `a` against
the case-insensitively equal entries `a` and `A` — is appended twice. -/
theorem typeFilter_duplicate_emission_cex :
    artifactTypeFilter.Filter { types := ["a", "A"] } [artTypeA] =
      .ok [artTypeA, artTypeA]
  ∧ ([artTypeA, artTypeA] : List Artifact) ≠ [artTypeA] := by
  refine ⟨by decide, by decide⟩

/-- C7 amended: with an empty configured set the type filter returns the
input unchanged; with a non-empty set it emits each input artifact once per
configured type whose lowercase form equals the artifact's lowercase type,
in input order (artifact-major, configured-type order within an artifact);
in particular artifacts matching no configured type are dropped, and an
artifact appears exactly once when it matches exactly one entry. -/
theorem typeFilter_amended_semantics (types : List String) (arts : List Artifact) :
    artifactTypeFilter.Filter { types := [] } arts = .ok arts
  ∧ (types ≠ [] →
      artifactTypeFilter.Filter { types := types } arts =
        .ok (arts.flatMap (fun art =>
          (types.filter (fun t => typeStringsEqual art.typ t)).map (fun _ => art)))) := by
  constructor
  · rfl
  · intro hne
    unfold artifactTypeFilter.Filter
    rw [if_neg hne, typeFilter_outerLoop_eq]

/-- C7 amended witness: on the duplicate-entry instance the amended
equation evaluates to the double emission observed above. -/
theorem typeFilter_amended_semantics_witness :
    artifactTypeFilter.Filter { types := ["a", "A"] } [artTypeA] =
      .ok ([artTypeA].flatMap (fun art =>
        ((["a", "A"] : List String).filter (fun t => typeStringsEqual art.typ t)).map
          (fun _ => art))) :=
  (typeFilter_amended_semantics ["a", "A"] [artTypeA]).2 (by decide)

/-- C8: under the spec's data-model value shapes, building never fails and
returns exactly one strategy per recognized rule kind, none for others, in
the order of the input rule list — the filterMap of the spec's declarative
per-kind mapping. -/
theorem buildArtifactFilters_total_ordered (fs : List model.Filter)
    (h : ∀ f ∈ fs, wellFormedFilter f = true) :
    BuildArtifactFilters fs = .ok (fs.filterMap ruleToStrategy) := by
  induction fs with
  | nil => rfl
  | cons f rest ih =>
    have hone := buildOne_eq_ruleToStrategy f (h f (List.mem_cons_self f rest))
    have hrest := ih (fun g hg => h g (List.mem_cons_of_mem f hg))
    simp only [BuildArtifactFilters]
    rw [hone, hrest]
    cases hrs : ruleToStrategy f <;> simp [List.filterMap_cons, hrs]

/-- C8 witness: on a rule list with all four recognized kinds plus an
unrecognized one, the builder succeeds and produces the four strategies in
input order. -/
theorem buildArtifactFilters_total_ordered_witness :
    BuildArtifactFilters demoRules = .ok (demoRules.filterMap ruleToStrategy) :=
  buildArtifactFilters_total_ordered demoRules (by decide)

/-- C4 counterexample: for the glob tag rule `v*` on an artifact with one
matching tag (`v1`) and one non-matching tag (`x`), the Matches run and
the Excludes run each keep the artifact (with complementary narrowed tag
lists), so as sets of artifacts modulo tag rewrites the two outputs both
contain the input artifact — they are not disjoint, hence not a
partition. -/
theorem tagFilter_decorations_overlap_cex :
    artifactTagFilter.Filter { pattern := "v*", decoration := model.Matches }
      demoGlob [artMixed] = .ok [artMixedKeptM]
  ∧ artifactTagFilter.Filter { pattern := "v*", decoration := model.Excludes }
      demoGlob [artMixed] = .ok [artMixedKeptE]
  ∧ sameIdentity artMixedKeptM artMixed
  ∧ sameIdentity artMixedKeptE artMixed := by
  exact ⟨by decide, by decide, ⟨rfl, rfl, rfl⟩, ⟨rfl, rfl, rfl⟩⟩

/-- C4 amended: for a non-empty exact label rule, Matches and Excludes
genuinely partition the input (disjoint, union equal to the input); for a
glob tag rule whose two runs both succeed, every input artifact appears —
identified by type, digest and labels, i.e. ignoring tag rewrites — in at
least one of the two outputs and every output record stems from an input
artifact, but the two outputs need not be disjoint (they overlap exactly
when an artifact carries both matching and non-matching tags). -/
theorem decoration_partition_amended
    (glob : GlobMatch) (ls : List String) (p : String)
    (arts resM resE tM tE : List Artifact)
    (hls : ls ≠ [])
    (hM : artifactLabelFilter.Filter { labels := ls, decoration := model.Matches } arts =
      .ok resM)
    (hE : artifactLabelFilter.Filter { labels := ls, decoration := model.Excludes } arts =
      .ok resE)
    (hTM : artifactTagFilter.Filter { pattern := p, decoration := model.Matches } glob arts =
      .ok tM)
    (hTE : artifactTagFilter.Filter { pattern := p, decoration := model.Excludes } glob arts =
      .ok tE) :
    (∀ x : Artifact, ¬(x ∈ resM ∧ x ∈ resE))
  ∧ (∀ x : Artifact, x ∈ arts ↔ (x ∈ resM ∨ x ∈ resE))
  ∧ (∀ a ∈ arts, (∃ b ∈ tM, sameIdentity b a) ∨ (∃ b ∈ tE, sameIdentity b a))
  ∧ (∀ b ∈ tM, ∃ a ∈ arts, sameIdentity b a)
  ∧ (∀ b ∈ tE, ∃ a ∈ arts, sameIdentity b a) := by
  rw [labelFilter_eq_filter ls model.Matches arts hls] at hM
  rw [labelFilter_eq_filter ls model.Excludes arts hls] at hE
  cases hM
  cases hE
  refine ⟨?_, ?_, ?_, ?_, ?_⟩
  · rintro x ⟨hxM, hxE⟩
    have hPM := (List.mem_filter.mp hxM).2
    have hPE := (List.mem_filter.mp hxE).2
    rw [keepByDecoration_matches] at hPM
    rw [keepByDecoration_excludes, hPM] at hPE
    cases hPE
  · intro x
    constructor
    · intro hx
      by_cases hP : hasAllLabels ls x.Labels = true
      · exact Or.inl (List.mem_filter.mpr
          ⟨hx, by rw [keepByDecoration_matches]; exact hP⟩)
      · exact Or.inr (List.mem_filter.mpr
          ⟨hx, by rw [keepByDecoration_excludes]; simp [Bool.eq_false_iff.mpr hP]⟩)
    · rintro (hx | hx)
      · exact (List.mem_filter.mp hx).1
      · exact (List.mem_filter.mp hx).1
  · intro a ha
    by_cases hp : p = ""
    · subst hp
      have htm : arts = tM := by
        simpa [artifactTagFilter.Filter] using hTM
      left
      exact ⟨a, htm ▸ ha, ⟨rfl, rfl, rfl⟩⟩
    · unfold artifactTagFilter.Filter at hTM hTE
      rw [if_neg hp] at hTM hTE
      rcases filterMapM_steps_ok _ _ _ hTM a ha with ⟨obM, hobM⟩
      rcases filterMapM_steps_ok _ _ _ hTE a ha with ⟨obE, hobE⟩
      rcases tagStep_cover p glob a obM obE hobM hobE with ⟨b, rfl⟩ | ⟨b, rfl⟩
      · exact Or.inl ⟨b, filterMapM_mem_of_step _ _ _ _ _ hTM ha hobM,
          tagStep_sameIdentity p model.Matches glob a b hobM⟩
      · exact Or.inr ⟨b, filterMapM_mem_of_step _ _ _ _ _ hTE ha hobE,
          tagStep_sameIdentity p model.Excludes glob a b hobE⟩
  · intro b hb
    by_cases hp : p = ""
    · subst hp
      have htm : arts = tM := by
        simpa [artifactTagFilter.Filter] using hTM
      exact ⟨b, htm ▸ hb, ⟨rfl, rfl, rfl⟩⟩
    · unfold artifactTagFilter.Filter at hTM
      rw [if_neg hp] at hTM
      rcases filterMapM_mem_inv _ _ _ _ hTM hb with ⟨a, hal, hab⟩
      exact ⟨a, hal, tagStep_sameIdentity p model.Matches glob a b hab⟩
  · intro b hb
    by_cases hp : p = ""
    · subst hp
      have hte : arts = tE := by
        simpa [artifactTagFilter.Filter] using hTE
      exact ⟨b, hte ▸ hb, ⟨rfl, rfl, rfl⟩⟩
    · unfold artifactTagFilter.Filter at hTE
      rw [if_neg hp] at hTE
      rcases filterMapM_mem_inv _ _ _ _ hTE hb with ⟨a, hal, hab⟩
      exact ⟨a, hal, tagStep_sameIdentity p model.Excludes glob a b hab⟩

/-- C4 amended witness: a concrete instance — label rule `stable`, tag rule
`v*`, input `artPlain` — where the label runs partition the input; here
the disjointness conjunct instantiated at `artPlain`. -/
theorem decoration_partition_amended_witness :
    ¬(artPlain ∈ [artPlain] ∧ artPlain ∈ ([] : List Artifact)) :=
  (decoration_partition_amended demoGlob ["stable"] "v*" [artPlain]
    [artPlain] [] [artPlainOut] [artPlainOutE]
    (by decide) (by decide) (by decide) (by decide) (by decide)).1 artPlain
